import Mathlib

/-!
# Verification of the pyAGC memory / interrupt / timer / loader core

Shallow embedding of the pyAGC emulator core (`pyAGC/memory.py`,
`pyAGC/registers.py`, `pyAGC/interrupts.py`, `pyAGC/cpu.py`,
`pyAGC/timer.py`) and proofs about its addressing, interrupt, reset,
loader and scheduler behaviour.

Conventions of the embedding:
* numpy `int16` cells are modelled as `Int` with explicit wrapping
  modulo 2^16 on store (`wrap16`);
* the numpy *views* `unswitched` (a C-order reshape of switched banks
  0-2) and `fixed_fixed` (a reshape of common-fixed banks 2-3) are
  modelled as index translations over the single backing stores, which
  is exactly the semantics of a numpy reshape view: element `k` of
  `unswitched` is `switched[k / 0o400][k % 0o400]`, element `k` of
  `fixed_fixed` is `common_fixed[2 + k / 0o2000][k % 0o2000]`;
* Python exceptions are modelled with `Except PyErr`; the `__getitem__`
  / `__setitem__` argument (an int, a 2-tuple, a 3-tuple, or a 2-tuple
  whose first component is a slice, as used by `cpu_reset`) is the
  inductive `Loc`;
* Python's truthiness test `not bank` (true for `None` and for `0`)
  is `bankFalsy`; `bank in range(n)` is `bankInRange`;
* wall-clock reads (`perf_counter_ns()`) are explicit arguments of the
  timer transition function.
-/

/-- Python exceptions raised by the modelled code.  `ValueError`
carries the message string of the corresponding `raise` site. -/
inductive PyErr where
  | typeError
  | valueErr (msg : String)
  deriving DecidableEq, Repr

/-- `_Memory.__getitem__` / `__setitem__` error message of the
`erasable` branch (also reused verbatim by the getter's `fixed`
branch in the source). -/
def eraRangeMsg : String := "Incorrect address/bank for erasable memory."

/-- `_Memory.__setitem__` error message of the `fixed` branch. -/
def fixRangeMsg : String := "Incorrect address/bank for fixed memory."

/-- `_Memory` error message for an unrecognized memory type tag. -/
def badTypeMsg : String := "Specified memory type does not exist."

/-- `_Memory` error message when the subscript is not a tuple. -/
def notTupleMsg : String := "Argument should be a tuple."

/-- The value actually stored by an assignment into a numpy `int16`
array: the argument wrapped into [-2^15, 2^15). -/
def wrap16 (v : Int) : Int := (v + 32768) % 65536 - 32768

/-- Backing stores of `_Memory.__init__`: `switched` is the 8 x 0o400
erasable array, `common_fixed` the 40 x 0o2000 fixed array.  The
`unswitched` and `fixed_fixed` numpy views are derived (see below). -/
structure Memory where
  switched : Int → Int → Int
  common_fixed : Int → Int → Int

/-- The `unswitched` view: `np.reshape(switched[0:3], 0o400 * 3)`,
element `a` aliases `switched[a / 0o400][a % 0o400]`. -/
def Memory.unswitched (m : Memory) (a : Int) : Int :=
  m.switched (a / 0o400) (a % 0o400)

/-- The `fixed_fixed` view: `np.reshape(common_fixed[2:4], 0o2000 * 2)`,
element `a` aliases `common_fixed[2 + a / 0o2000][a % 0o2000]`. -/
def Memory.fixed_fixed (m : Memory) (a : Int) : Int :=
  m.common_fixed (2 + a / 0o2000) (a % 0o2000)

/-- Point update of the `switched` backing store (a write through any
of the erasable views lands here). -/
def updSwitched (m : Memory) (b a v : Int) : Memory :=
  { m with switched := fun i j => if i = b ∧ j = a then v else m.switched i j }

/-- Point update of the `common_fixed` backing store. -/
def updCommonFixed (m : Memory) (b a v : Int) : Memory :=
  { m with common_fixed := fun i j => if i = b ∧ j = a then v else m.common_fixed i j }

/-- Python truthiness test `not bank` of the source: satisfied by a
missing bank (`None`) and by bank `0`. -/
def bankFalsy (b : Option Int) : Prop := b = none ∨ b = some 0

instance (b : Option Int) : Decidable (bankFalsy b) := by
  unfold bankFalsy; infer_instance

/-- Python membership test `bank in range(n)`: false for `None`,
otherwise `0 <= bank < n`. -/
def bankInRange (b : Option Int) (n : Int) : Prop :=
  match b with
  | none => False
  | some x => 0 ≤ x ∧ x < n

instance (b : Option Int) (n : Int) : Decidable (bankInRange b n) :=
  match b with
  | none => isFalse (fun h => h)
  | some x => inferInstanceAs (Decidable (0 ≤ x ∧ x < n))

/-- Core of `_Memory.__getitem__` after tuple unpacking: `bank` is
`none` for a 2-tuple subscript, `some b` for a 3-tuple. -/
def memGetE (m : Memory) (bank : Option Int) (addr : Int) (ty : String) :
    Except PyErr Int :=
  if ty = "erasable" then
    if (0 ≤ addr ∧ addr < 0o1400) ∧ bankFalsy bank then
      .ok (m.unswitched addr)
    else if bankInRange bank 8 ∧ (0 ≤ addr ∧ addr < 0o400) then
      .ok (m.switched (bank.getD 0) addr)
    else .error (.valueErr eraRangeMsg)
  else if ty = "fixed" then
    if (0o2000 ≤ addr ∧ addr < 0o4000) ∧ bankFalsy bank then
      .ok (m.fixed_fixed (addr - 0o2000))
    else if bankInRange bank 40 ∧ (0 ≤ addr ∧ addr < 0o2000) then
      .ok (m.common_fixed (bank.getD 0) addr)
    else .error (.valueErr eraRangeMsg)
  else .error (.valueErr badTypeMsg)

/-- Core of `_Memory.__setitem__` after tuple unpacking. -/
def memSetE (m : Memory) (bank : Option Int) (addr : Int) (ty : String)
    (v : Int) : Except PyErr Memory :=
  if ty = "erasable" then
    if (0 ≤ addr ∧ addr < 0o1400) ∧ bankFalsy bank then
      .ok (updSwitched m (addr / 0o400) (addr % 0o400) (wrap16 v))
    else if bankInRange bank 8 ∧ (0 ≤ addr ∧ addr < 0o400) then
      .ok (updSwitched m (bank.getD 0) addr (wrap16 v))
    else .error (.valueErr eraRangeMsg)
  else if ty = "fixed" then
    if (0o2000 ≤ addr ∧ addr < 0o4000) ∧ bankFalsy bank then
      .ok (updCommonFixed m (2 + (addr - 0o2000) / 0o2000)
            ((addr - 0o2000) % 0o2000) (wrap16 v))
    else if bankInRange bank 40 ∧ (0 ≤ addr ∧ addr < 0o2000) then
      .ok (updCommonFixed m (bank.getD 0) addr (wrap16 v))
    else .error (.valueErr fixRangeMsg)
  else .error (.valueErr badTypeMsg)

/-- The subscript object passed to `_Memory.__getitem__` /
`__setitem__`: a bare int (as `_Interrupts.process` does), a 2-tuple,
a 3-tuple, or a 2-tuple holding a slice (as `cpu_reset` does). -/
inductive Loc where
  | intLoc (n : Int)
  | pairLoc (addr : Int) (ty : String)
  | tripleLoc (bank addr : Int) (ty : String)
  | slicePairLoc (lo hi : Int) (ty : String)
  deriving DecidableEq

/-- `_Memory.__getitem__`: a non-tuple subscript raises `TypeError`;
a 2-tuple with a slice address fails both membership tests (a slice
equals no int, and `None in range(n)` is false), so it reaches the
`ValueError` branch of its region. -/
def memGetPy (m : Memory) (loc : Loc) : Except PyErr Int :=
  match loc with
  | .intLoc _ => .error .typeError
  | .pairLoc addr ty => memGetE m none addr ty
  | .tripleLoc bank addr ty => memGetE m (some bank) addr ty
  | .slicePairLoc _ _ ty =>
      if ty = "erasable" then .error (.valueErr eraRangeMsg)
      else if ty = "fixed" then .error (.valueErr eraRangeMsg)
      else .error (.valueErr badTypeMsg)

/-- `_Memory.__setitem__` over a subscript object. -/
def memSetPy (m : Memory) (loc : Loc) (v : Int) : Except PyErr Memory :=
  match loc with
  | .intLoc _ => .error .typeError
  | .pairLoc addr ty => memSetE m none addr ty v
  | .tripleLoc bank addr ty => memSetE m (some bank) addr ty v
  | .slicePairLoc _ _ ty =>
      if ty = "erasable" then .error (.valueErr eraRangeMsg)
      else if ty = "fixed" then .error (.valueErr fixRangeMsg)
      else .error (.valueErr badTypeMsg)

/-- `_Memory.__init__`: all cells zero except
`unswitched[reg.Z] = 0o4000`, i.e. `switched[0][0o5] = 0o4000`. -/
def initMemory : Memory :=
  { switched := fun b a => if b = 0 ∧ a = 5 then 0o4000 else 0
    common_fixed := fun _ _ => 0 }

deriving instance DecidableEq for Except

/-- `Except.ok`-ness, used to state success / failure of an access. -/
def excOk {α : Type} : Except PyErr α → Bool
  | .ok _ => true
  | .error _ => false

/-- Register addresses from `_Registers.__init__` that the interrupt
controller and `cpu_reset` use (`Z = 0o05`, `ZRUPT = 0o15`,
`BRUPT = 0o17`, `L = 0o01`, `Q = 0o02`). -/
def regZ : Int := 0o05

/-- Address of the `ZRUPT` register. -/
def regZRUPT : Int := 0o15

/-- Address of the `BRUPT` register. -/
def regBRUPT : Int := 0o17

/-- Address of the `L` register. -/
def regL : Int := 0o01

/-- Address of the `Q` register. -/
def regQ : Int := 0o02

/-- The state owned by `Cpu.__init__` together with the interrupt
controller's state: the memory, the two CPU flags, the interrupt
enable flag, the hidden `B` register (`_Registers.B`, assigned by
`_Interrupts.process`), and the `parities` bitmap array
(`40 * (0o2000 / 32)` words of a `uint32` numpy array, modelled as a
function to `Nat`). -/
structure Cpu where
  mem : Memory
  extracodeFlag : Bool
  checkParityFlag : Bool
  irqEnable : Bool
  regB : Int
  parities : Nat → Nat

/-- `Cpu.__init__`: fresh memory, flags `False`, interrupts enabled
(`_Interrupts.__init__` sets `enable = True`), zero parities. -/
def initCpu : Cpu :=
  { mem := initMemory
    extracodeFlag := false
    checkParityFlag := false
    irqEnable := true
    regB := 0
    parities := fun _ => 0 }

/-- `_Interrupts.process(intrpt)`.  The source subscripts `_Memory`
with bare register addresses (`self.mem[self.reg.Z]` etc.), which
`__getitem__` / `__setitem__` reject before anything else, so the
memory accesses are embedded with `Loc.intLoc`.  Python evaluates the
right-hand side of each assignment first. -/
def irqProcess (c : Cpu) (intrpt : Int) : Except PyErr (Cpu × Bool) :=
  if c.irqEnable then do
    -- self.mem[self.reg.ZRUPT] = self.mem[self.reg.Z]
    let zv ← memGetPy c.mem (.intLoc regZ)
    let m1 ← memSetPy c.mem (.intLoc regZRUPT) zv
    -- self.mem[self.reg.BRUPT] = self.mem[self.mem[self.reg.Z]]
    let pc ← memGetPy m1 (.intLoc regZ)
    let instrWord ← memGetPy m1 (.intLoc pc)
    let m2 ← memSetPy m1 (.intLoc regBRUPT) instrWord
    -- self.reg.B = intrpt; self.enable = False; return True
    .ok ({ c with mem := m2, regB := intrpt, irqEnable := false }, true)
  else
    .ok (c, false)

/-- `Cpu.cpu_reset`.  It reassigns `mem.switched` to a fresh zero
array and rebuilds the `unswitched` view over it (in this embedding
the view is derived, so re-zeroing `switched` is the whole effect),
performs the bare read `self.mem[self.reg.Z, 'erasable']`, and then
evaluates `self.mem[self.reg.L:self.reg.L+1, 'erasable']` — a 2-tuple
subscript whose first component is a slice — to rebuild the I/O
channel overlay.  An uncaught exception leaves the object's state as
mutated so far, so the result pairs the state with the raised error
(if any). -/
def cpuReset (c : Cpu) : Cpu × Option PyErr :=
  let m1 : Memory := { c.mem with switched := fun _ _ => 0 }
  match memGetPy m1 (.pairLoc regZ "erasable") with
  | .error e => ({ c with mem := m1 }, some e)
  | .ok _ =>
    match memGetPy m1 (.slicePairLoc regL (regL + 1) "erasable") with
    | .error e => ({ c with mem := m1 }, some e)
    | .ok _ =>
      match memGetPy m1 (.slicePairLoc regQ (regQ + 1) "erasable") with
      | .error e => ({ c with mem := m1 }, some e)
      | .ok _ =>
        ({ c with mem := m1
                  extracodeFlag := false
                  checkParityFlag := false
                  irqEnable := true }, none)

/-- `fixed_words` (`0o2000` words per common-fixed bank). -/
def fixedWords : Nat := 0o2000

/-- `banks` list of `load_core_rope`: `[0..35]` with the first four
entries reordered to `2, 3, 0, 1`. -/
def bankOrder : List Nat := [2, 3, 0, 1] ++ List.range' 4 32

/-- One step of the `load_core_rope` loop body for the word formed
from two big-endian bytes: store `word >> 1` through
`self.mem[bank, addr, 'fixed']` and OR the parity bit into
`parities[(bank * fixed_words + addr) / 32]` at bit `addr % 32`;
`check_parity_flag` becomes true once a parity bit is seen. -/
def loadWord (c : Cpu) (bank addr : Nat) (word : Nat) : Except PyErr Cpu := do
  let parity := word % 2
  let m ← memSetPy c.mem (.tripleLoc (Int.ofNat bank) (Int.ofNat addr) "fixed")
            (Int.ofNat (word / 2))
  let pidx := (bank * fixedWords + addr) / 32
  .ok { c with
          mem := m
          parities := fun i =>
            if i = pidx then c.parities pidx ||| (parity <<< (addr % 32))
            else c.parities i
          checkParityFlag := c.checkParityFlag || parity ≠ 0 }

/-- The `for i in range(file_size_word)` loop of `load_core_rope`,
recursing over the remaining bytes two at a time.  At the top of each
iteration, when `addr` has reached `fixed_words`, the bank iterator is
advanced (`StopIteration` only prints and keeps the current bank) and
`addr` is reset to `0`.  A trailing lone byte cannot occur: the word
count is `len // 2`, so a final odd byte is never read. -/
def loadLoop (c : Cpu) (bank idx addr : Nat) : List Nat → Except PyErr Cpu
  | [] => .ok c
  | [_] => .ok c
  | b0 :: b1 :: rest => do
    let next : Nat × Nat × Nat :=
      if addr = fixedWords then
        match bankOrder.get? idx with
        | some b => (b, idx + 1, 0)
        | none => (bank, idx, 0)
      else (bank, idx, addr)
    let word := b0 * 256 + b1
    let c1 ← loadWord c next.1 next.2.2 word
    loadLoop c1 next.1 next.2.1 (next.2.2 + 1) rest

/-- `Cpu.load_core_rope` on the contents of the `.bin` file (the
path / existence checks act on the OS, not on AGC state, and are not
modelled).  The two modelled preconditions are checked in source
order: even byte count first, then the 36-bank capacity bound; the
loop starts with `bank = next(banks_iter)`, i.e. the head of
`bankOrder`. -/
def loadCoreRope (c : Cpu) (data : List Nat) : Except PyErr Cpu :=
  if data.length % 2 ≠ 0 then
    .error (.valueErr "Incorrect file size (size is not even).")
  else if 36 * fixedWords < data.length / 2 then
    .error (.valueErr "File size is too big for core memory.")
  else
    loadLoop c (bankOrder.headD 0) 1 0 data

/-- `_Timer` state: the constant machine-cycle period `MCT_ns`, the
last computed elapsed time, the cycle start timestamp, the extra-cycle
count set by instructions, the pending wait time, and the recorded
total cycle time.  All times are integer nanoseconds. -/
structure Timer where
  MCT_ns : Int
  elapsed_time_ns : Int
  cycle_start_time_ns : Int
  added_cycle : Int
  elapsed_wait : Int
  total_cycle_time : Int
  deriving DecidableEq

/-- `_Timer.__init__` at clock reading `t0`. -/
def initTimer (t0 : Int) : Timer :=
  { MCT_ns := 11720
    elapsed_time_ns := 0
    cycle_start_time_ns := t0
    added_cycle := 0
    elapsed_wait := 0
    total_cycle_time := 0 }

/-- `_Timer.do_cycle`.  `t1` is the result of the `time_ns()` call in
the elapsed-time computation, `t2` the result of the second call made
on the successful branch.  On success `cycle_start_time_ns := t2`,
`added_cycle` and `elapsed_wait` are reset to zero when positive, and
`total_cycle_time` records elapsed plus wait; on failure only
`elapsed_time_ns` is written. -/
def doCycle (t : Timer) (t1 t2 : Int) : Timer × Bool :=
  let e := (t1 - t.elapsed_wait) - t.cycle_start_time_ns
  if t.MCT_ns + t.MCT_ns * t.added_cycle ≤ e then
    ({ t with
        elapsed_time_ns := e
        cycle_start_time_ns := t2
        added_cycle := if 0 < t.added_cycle then 0 else t.added_cycle
        total_cycle_time := e + t.elapsed_wait
        elapsed_wait := if 0 < t.elapsed_wait then 0 else t.elapsed_wait }, true)
  else
    ({ t with elapsed_time_ns := e }, false)

/-- Modelled from the spec: the register-file access side effects of
`CYR` / `SR` / `CYL` / `EDOP` are described in `registers.py` (lines
76-92) only as comments over the address constants; no implementation
exists under `src/`.  `cycleRight15` is the spec's rotate-right of a
15-bit word: `abc def ghi jkl mno -> oab cde fgh ijk lmn`. -/
def cycleRight15 (v : Nat) : Nat := v / 2 + v % 2 * 16384

/-- Modelled from the spec: rotate-left of a 15-bit word, applied when
`CYL` is read: `abc def ghi jkl mno -> bcd efg hij klm noa`. -/
def cycleLeft15 (v : Nat) : Nat := v % 16384 * 2 + v / 16384

/-- Modelled from the spec: `SR` shift-right with duplicated top bit:
`abc def ghi jkl mno -> aab cde fgh ijk lmn`. -/
def shiftRight15 (v : Nat) : Nat := v / 2 + v / 16384 * 16384

/-- Modelled from the spec: `EDOP` stores the value shifted right 7
with the upper 8 bits zeroed: `abc def ghi jkl mno -> 000 000 00b cde
fgh`. -/
def edop15 (v : Nat) : Nat := v / 128 % 128

/-- Address of the `CYR` register (`0o20`). -/
def regCYR : Nat := 0o20

/-- Address of the `SR` register (`0o21`). -/
def regSR : Nat := 0o21

/-- Address of the `CYL` register (`0o22`). -/
def regCYL : Nat := 0o22

/-- Address of the `EDOP` register (`0o23`). -/
def regEDOP : Nat := 0o23

/-- Modelled from the spec: register-file `set(addr, value)` — the
write-transform dispatch: `CYR` stores the rotate-right, `SR` the
shift-right, `EDOP` the shift-7-and-mask; every other slot is plain
storage.  The store itself is a plain map from register address to
word. -/
def regSet (st : Nat → Nat) (addr v : Nat) : Nat → Nat :=
  let stored :=
    if addr = regCYR then cycleRight15 v
    else if addr = regSR then shiftRight15 v
    else if addr = regEDOP then edop15 v
    else v
  fun a => if a = addr then stored else st a

/-- Modelled from the spec: register-file `get(addr)` — reading `CYL`
returns the stored value rotated left once; the storage itself is
unrotated; every other slot reads back as stored. -/
def regGet (st : Nat → Nat) (addr : Nat) : Nat :=
  if addr = regCYL then cycleLeft15 (st addr) else st addr

example : memGetE initMemory none 5 "erasable" = .ok 0o4000 := by decide
example : memGetE initMemory (some 0) 0o500 "erasable" =
    .ok (initMemory.switched 1 0o100) := by decide
example : excOk (memGetE initMemory (some 1) 0o500 "erasable") = false := by decide
example : memGetE initMemory none 0 "fixed" = .error (.valueErr eraRangeMsg) := by
  decide

/-- A stored numpy `int16` value equals the assigned value whenever the
latter is a 15-bit word. -/
theorem wrap16_eq_self (v : Int) (h0 : 0 ≤ v) (h1 : v < 32768) : wrap16 v = v := by
  unfold wrap16; omega

/-- Unfolding of the erasable branch of `memGetE`. -/
theorem memGetE_era (m : Memory) (bank : Option Int) (addr : Int) :
    memGetE m bank addr "erasable" =
      if (0 ≤ addr ∧ addr < 0o1400) ∧ bankFalsy bank then
        .ok (m.unswitched addr)
      else if bankInRange bank 8 ∧ (0 ≤ addr ∧ addr < 0o400) then
        .ok (m.switched (bank.getD 0) addr)
      else .error (.valueErr eraRangeMsg) := by
  rfl

/-- Unfolding of the erasable branch of `memSetE`. -/
theorem memSetE_era (m : Memory) (bank : Option Int) (addr v : Int) :
    memSetE m bank addr "erasable" v =
      if (0 ≤ addr ∧ addr < 0o1400) ∧ bankFalsy bank then
        .ok (updSwitched m (addr / 0o400) (addr % 0o400) (wrap16 v))
      else if bankInRange bank 8 ∧ (0 ≤ addr ∧ addr < 0o400) then
        .ok (updSwitched m (bank.getD 0) addr (wrap16 v))
      else .error (.valueErr eraRangeMsg) := by
  rfl

/-- Unfolding of the fixed branch of `memGetE`. -/
theorem memGetE_fix (m : Memory) (bank : Option Int) (addr : Int) :
    memGetE m bank addr "fixed" =
      if (0o2000 ≤ addr ∧ addr < 0o4000) ∧ bankFalsy bank then
        .ok (m.fixed_fixed (addr - 0o2000))
      else if bankInRange bank 40 ∧ (0 ≤ addr ∧ addr < 0o2000) then
        .ok (m.common_fixed (bank.getD 0) addr)
      else .error (.valueErr eraRangeMsg) := by
  rfl

/-- Unfolding of the fixed branch of `memSetE`. -/
theorem memSetE_fix (m : Memory) (bank : Option Int) (addr v : Int) :
    memSetE m bank addr "fixed" v =
      if (0o2000 ≤ addr ∧ addr < 0o4000) ∧ bankFalsy bank then
        .ok (updCommonFixed m (2 + (addr - 0o2000) / 0o2000)
              ((addr - 0o2000) % 0o2000) (wrap16 v))
      else if bankInRange bank 40 ∧ (0 ≤ addr ∧ addr < 0o2000) then
        .ok (updCommonFixed m (bank.getD 0) addr (wrap16 v))
      else .error (.valueErr fixRangeMsg) := by
  rfl

/-- Reading the switched store after a point update. -/
theorem updSwitched_read (m : Memory) (b a v i j : Int) :
    (updSwitched m b a v).switched i j =
      if i = b ∧ j = a then v else m.switched i j := rfl

/-- Reading the unswitched view after a point update of the switched
store. -/
theorem updSwitched_unswitched (m : Memory) (b a v x : Int) :
    (updSwitched m b a v).unswitched x =
      if x / 0o400 = b ∧ x % 0o400 = a then v else m.unswitched x := rfl

/-- Reading the common-fixed store after a point update. -/
theorem updCommonFixed_read (m : Memory) (b a v i j : Int) :
    (updCommonFixed m b a v).common_fixed i j =
      if i = b ∧ j = a then v else m.common_fixed i j := rfl

/-- Reading the fixed-fixed view after a point update of the
common-fixed store. -/
theorem updCommonFixed_fixed_fixed (m : Memory) (b a v x : Int) :
    (updCommonFixed m b a v).fixed_fixed x =
      if 2 + x / 0o2000 = b ∧ x % 0o2000 = a then v else m.fixed_fixed x := rfl

/-- `Except.bind` on a success. -/
theorem exceptBind_ok {α β : Type} (x : α) (f : α → Except PyErr β) :
    Except.bind (Except.ok x) f = f x := rfl

/-- A supplied bank is falsy exactly when it is zero. -/
theorem bankFalsy_some (b : Int) : bankFalsy (some b) ↔ b = 0 := by
  unfold bankFalsy
  constructor
  · rintro (h | h)
    · exact Option.noConfusion h
    · exact Option.some.inj h
  · intro h; exact Or.inr (by rw [h])

/-- C1: for every address `a` in `[0, 0o1400)` and every 15-bit word
`v`, writing `v` through the switched-erasable path at bank
`a / 0o400`, offset `a % 0o400` is read back as `v` through the
unswitched path at `a`, and a write through the unswitched path at `a`
is read back as `v` through the switched path at that bank/offset: the
two addressing paths denote the same storage cell. -/
theorem C1_erasable_alias (m : Memory) (a v : Int)
    (ha0 : 0 ≤ a) (ha : a < 0o1400) (hv0 : 0 ≤ v) (hv : v < 32768) :
    (memSetE m (some (a / 0o400)) (a % 0o400) "erasable" v).bind
      (fun m2 => memGetE m2 none a "erasable") = .ok v ∧
    (memSetE m none a "erasable" v).bind
      (fun m2 => memGetE m2 (some (a / 0o400)) (a % 0o400) "erasable") = .ok v := by
  have hr0 : 0 ≤ a % 0o400 := by omega
  have hr : a % 0o400 < 0o400 := by omega
  have hq0 : 0 ≤ a / 0o400 := by omega
  have hq : a / 0o400 < 3 := by omega
  have hw : wrap16 v = v := wrap16_eq_self v hv0 hv
  constructor
  · by_cases hz : a / 0o400 = 0
    · rw [memSetE_era, if_pos ⟨⟨hr0, by omega⟩, (bankFalsy_some _).mpr hz⟩,
        exceptBind_ok, memGetE_era, if_pos ⟨⟨ha0, ha⟩, Or.inl rfl⟩,
        updSwitched_unswitched, if_pos ⟨by omega, by omega⟩, hw]
    · have hnc : ¬ ((0 ≤ a % 0o400 ∧ a % 0o400 < 0o1400) ∧
          bankFalsy (some (a / 0o400))) :=
        fun h => hz ((bankFalsy_some _).mp h.2)
      rw [memSetE_era, if_neg hnc, if_pos ⟨⟨hq0, by omega⟩, hr0, hr⟩,
        exceptBind_ok, memGetE_era, if_pos ⟨⟨ha0, ha⟩, Or.inl rfl⟩]
      simp only [Option.getD_some]
      rw [updSwitched_unswitched, if_pos ⟨rfl, rfl⟩, hw]
  · rw [memSetE_era, if_pos ⟨⟨ha0, ha⟩, Or.inl rfl⟩, exceptBind_ok]
    by_cases hz : a / 0o400 = 0
    · rw [memGetE_era, if_pos ⟨⟨hr0, by omega⟩, (bankFalsy_some _).mpr hz⟩,
        updSwitched_unswitched, if_pos ⟨by omega, by omega⟩, hw]
    · have hnc : ¬ ((0 ≤ a % 0o400 ∧ a % 0o400 < 0o1400) ∧
          bankFalsy (some (a / 0o400))) :=
        fun h => hz ((bankFalsy_some _).mp h.2)
      rw [memGetE_era, if_neg hnc, if_pos ⟨⟨hq0, by omega⟩, hr0, hr⟩]
      simp only [Option.getD_some]
      rw [updSwitched_read, if_pos ⟨rfl, rfl⟩, hw]

/-- C1 witness at `a = 0o500`, `v = 5`. -/
theorem C1_erasable_alias_witness :
    (memSetE initMemory (some (0o500 / 0o400)) (0o500 % 0o400) "erasable" 5).bind
      (fun m2 => memGetE m2 none 0o500 "erasable") = .ok 5 ∧
    (memSetE initMemory none 0o500 "erasable" 5).bind
      (fun m2 => memGetE m2 (some (0o500 / 0o400)) (0o500 % 0o400) "erasable") =
      .ok 5 :=
  C1_erasable_alias initMemory 0o500 5 (by decide) (by decide) (by decide) (by decide)

/-- C2 (code bug): on an enabled controller, `_Interrupts.process`
subscripts `_Memory` with a bare register address
(`self.mem[self.reg.Z]`), which `__getitem__` rejects with
`TypeError` before any state is saved, so the dispatch raises instead
of filling `ZRUPT` / `BRUPT` and returning `True`; the disabled branch
does return `False` with the state unchanged, as claimed. -/
theorem C2_interrupt_dispatch_raises :
    irqProcess initCpu 0o4014 = .error .typeError ∧
    irqProcess { initCpu with irqEnable := false } 0o4014 =
      .ok ({ initCpu with irqEnable := false }, false) :=
  ⟨rfl, rfl⟩

/-- C3 (code bug): the bankless `fixed` path accepts only raw
addresses in `[0o2000, 0o4000)` and subtracts `0o2000`, so
fixed-fixed offset `0` (and the machine's fixed-fixed base address
`0o4000`, where `Z` is initialised) raises, while raw address
`0o2000` lands on fixed-fixed offset `0` — only the common-fixed
bank-2 half of the fixed-fixed store is reachable through the direct
path. -/
theorem C3_fixed_direct_range_bug :
    memGetE initMemory none 0 "fixed" = .error (.valueErr eraRangeMsg) ∧
    memGetE initMemory none 0o4000 "fixed" = .error (.valueErr eraRangeMsg) ∧
    (memSetE initMemory (some 2) 0 "fixed" 7).bind
      (fun m2 => memGetE m2 none 0o2000 "fixed") = .ok 7 ∧
    (memSetE initMemory (some 3) 0 "fixed" 7).bind
      (fun m2 => memGetE m2 none 0o4000 "fixed") =
      .error (.valueErr eraRangeMsg) := by
  decide

/-- C4 counterexample: loading the 2-word image `[0x00,0x03,
0x00,0x05]` leaves parity bitmap word `0` entirely clear — the claim
places the two parity bits in bitmap word `0`, but the formula
`(bank * fixed_words + addr) / 32` with `bank = 2` gives word `64`. -/
theorem C4_parity_word_zero_counterexample :
    Except.map (fun c => c.parities 0) (loadCoreRope initCpu [0, 3, 0, 5]) =
      .ok 0 := by
  decide

/-- C4 amended: the 2-word image `[0x00,0x03, 0x00,0x05]` stores
value `1` at common-fixed bank 2 offset 0 and value `2` at offset 1,
sets parity bits 0 and 1 of bitmap word `64 = (2 * 0o2000 + 0) / 32`
(so that word holds `3`), and leaves the parity-seen flag true. -/
theorem C4_loader_scenario_amended :
    Except.map
      (fun c => (c.mem.common_fixed 2 0, c.mem.common_fixed 2 1,
                 c.parities 64, c.checkParityFlag))
      (loadCoreRope initCpu [0, 3, 0, 5]) = .ok (1, 2, 3, true) := by
  decide

/-- C5: the loader fails with the distinct odd-size error on any image
of odd byte length, and with the distinct too-large error on any image
of even byte length whose word count exceeds `36 * fixed_words`; the
parity (evenness) check runs first, and both failures abort before the
load loop, so no memory cell or parity word is modified. -/
theorem C5_loader_preconditions (c : Cpu) (data : List Nat) :
    (data.length % 2 = 1 →
      loadCoreRope c data =
        .error (.valueErr "Incorrect file size (size is not even).")) ∧
    (data.length % 2 = 0 → 36 * fixedWords < data.length / 2 →
      loadCoreRope c data =
        .error (.valueErr "File size is too big for core memory.")) := by
  constructor
  · intro h
    unfold loadCoreRope
    rw [if_pos (by omega)]
  · intro h1 h2
    unfold loadCoreRope
    rw [if_neg (by omega), if_pos h2]

/-- C5 witness: a 3-byte image is rejected as odd-sized, and an
all-zero image of `36 * 0o2000 + 1` words (73,730 bytes) is rejected
as too large. -/
theorem C5_loader_preconditions_witness :
    loadCoreRope initCpu [0, 0, 0] =
      .error (.valueErr "Incorrect file size (size is not even).") ∧
    loadCoreRope initCpu (List.replicate 73730 0) =
      .error (.valueErr "File size is too big for core memory.") :=
  ⟨(C5_loader_preconditions initCpu [0, 0, 0]).1 (by decide),
   (C5_loader_preconditions initCpu (List.replicate 73730 0)).2
     (by norm_num [List.length_replicate])
     (by norm_num [List.length_replicate, fixedWords])⟩

/-- C6 (code bug): `cpu_reset` re-zeroes the erasable store (both
views, which alias by construction) but then evaluates
`self.mem[self.reg.L:self.reg.L+1, 'erasable']` — a slice subscript
that `_Memory.__getitem__`'s range tests reject — so the reset raises
`ValueError` before reinitialising the I/O overlay, clearing the
extracode / parity flags, or re-enabling interrupts; fixed memory and
the parity bitmap do survive because nothing past the erasable
re-zeroing runs. -/
theorem C6_reset_raises (c : Cpu) :
    cpuReset c =
      ({ c with mem := { c.mem with switched := fun _ _ => 0 } },
        some (.valueErr eraRangeMsg)) :=
  rfl

/-- C7 counterexample: an erasable access that supplies bank `0`
together with offset `0o400` succeeds (it is routed to the unswitched
view), contradicting the claim that every access supplying a bank with
an offset of `0o400` or more fails. -/
theorem C7_bank_zero_counterexample :
    excOk (memGetE initMemory (some 0) 0o400 "erasable") = true ∧
    excOk (memSetE initMemory (some 0) 0o400 "erasable" 7) = true := by
  decide

/-- C7 amended: an access succeeds exactly when either the bank is
falsy (omitted or `0`) and the address lies in the direct range of the
region, or the bank is a supplied value in the bank range with the
address in the per-bank range; every other combination fails, an
unrecognized region tag fails with the distinct region error, and — in
particular — an erasable access supplying a *nonzero* bank with offset
`≥ 0o400` fails. -/
theorem C7_access_validity_amended (m : Memory) (bank : Option Int)
    (addr v : Int) (ty : String) :
    (excOk (memGetE m bank addr "erasable") = true ↔
      (bankFalsy bank ∧ 0 ≤ addr ∧ addr < 0o1400) ∨
      (bankInRange bank 8 ∧ 0 ≤ addr ∧ addr < 0o400)) ∧
    (excOk (memSetE m bank addr "erasable" v) = true ↔
      (bankFalsy bank ∧ 0 ≤ addr ∧ addr < 0o1400) ∨
      (bankInRange bank 8 ∧ 0 ≤ addr ∧ addr < 0o400)) ∧
    (excOk (memGetE m bank addr "fixed") = true ↔
      (bankFalsy bank ∧ 0o2000 ≤ addr ∧ addr < 0o4000) ∨
      (bankInRange bank 40 ∧ 0 ≤ addr ∧ addr < 0o2000)) ∧
    (excOk (memSetE m bank addr "fixed" v) = true ↔
      (bankFalsy bank ∧ 0o2000 ≤ addr ∧ addr < 0o4000) ∨
      (bankInRange bank 40 ∧ 0 ≤ addr ∧ addr < 0o2000)) ∧
    (ty ≠ "erasable" → ty ≠ "fixed" →
      memGetE m bank addr ty = .error (.valueErr badTypeMsg) ∧
      memSetE m bank addr ty v = .error (.valueErr badTypeMsg)) ∧
    (∀ b : Int, b ≠ 0 → 0o400 ≤ addr →
      excOk (memGetE m (some b) addr "erasable") = false ∧
      excOk (memSetE m (some b) addr "erasable" v) = false) := by
  refine ⟨?_, ?_, ?_, ?_, ?_, ?_⟩
  · rw [memGetE_era]
    split_ifs with h1 h2
    · exact iff_of_true rfl (Or.inl ⟨h1.2, h1.1.1, h1.1.2⟩)
    · exact iff_of_true rfl (Or.inr ⟨h2.1, h2.2.1, h2.2.2⟩)
    · refine iff_of_false (by decide) ?_
      rintro (⟨hf, hr1, hr2⟩ | ⟨hbr, hr1, hr2⟩)
      · exact h1 ⟨⟨hr1, hr2⟩, hf⟩
      · exact h2 ⟨hbr, hr1, hr2⟩
  · rw [memSetE_era]
    split_ifs with h1 h2
    · exact iff_of_true rfl (Or.inl ⟨h1.2, h1.1.1, h1.1.2⟩)
    · exact iff_of_true rfl (Or.inr ⟨h2.1, h2.2.1, h2.2.2⟩)
    · refine iff_of_false (by decide) ?_
      rintro (⟨hf, hr1, hr2⟩ | ⟨hbr, hr1, hr2⟩)
      · exact h1 ⟨⟨hr1, hr2⟩, hf⟩
      · exact h2 ⟨hbr, hr1, hr2⟩
  · rw [memGetE_fix]
    split_ifs with h1 h2
    · exact iff_of_true rfl (Or.inl ⟨h1.2, h1.1.1, h1.1.2⟩)
    · exact iff_of_true rfl (Or.inr ⟨h2.1, h2.2.1, h2.2.2⟩)
    · refine iff_of_false (by decide) ?_
      rintro (⟨hf, hr1, hr2⟩ | ⟨hbr, hr1, hr2⟩)
      · exact h1 ⟨⟨hr1, hr2⟩, hf⟩
      · exact h2 ⟨hbr, hr1, hr2⟩
  · rw [memSetE_fix]
    split_ifs with h1 h2
    · exact iff_of_true rfl (Or.inl ⟨h1.2, h1.1.1, h1.1.2⟩)
    · exact iff_of_true rfl (Or.inr ⟨h2.1, h2.2.1, h2.2.2⟩)
    · refine iff_of_false (by decide) ?_
      rintro (⟨hf, hr1, hr2⟩ | ⟨hbr, hr1, hr2⟩)
      · exact h1 ⟨⟨hr1, hr2⟩, hf⟩
      · exact h2 ⟨hbr, hr1, hr2⟩
  · intro h1 h2
    constructor
    · unfold memGetE
      rw [if_neg h1, if_neg h2]
    · unfold memSetE
      rw [if_neg h1, if_neg h2]
  · intro b hb haddr
    have hnc1 : ¬ ((0 ≤ addr ∧ addr < 0o1400) ∧ bankFalsy (some b)) :=
      fun h => hb ((bankFalsy_some b).mp h.2)
    have hnc2 : ¬ (bankInRange (some b) 8 ∧ (0 ≤ addr ∧ addr < 0o400)) :=
      fun h => absurd h.2.2 (by omega)
    constructor
    · rw [memGetE_era, if_neg hnc1, if_neg hnc2]; rfl
    · rw [memSetE_era, if_neg hnc1, if_neg hnc2]; rfl

/-- C7 amended witness at `m = initMemory`, `bank = some 3`,
`addr = 0o777`, `v = 1`, `ty` an unrecognized tag; the implications
are discharged at `b = 3`. -/
theorem C7_access_validity_amended_witness :
    memGetE initMemory (some 3) 0o777 "io" = .error (.valueErr badTypeMsg) ∧
    excOk (memGetE initMemory (some 3) 0o777 "erasable") = false ∧
    excOk (memSetE initMemory (some 3) 0o777 "erasable" 1) = false :=
  ⟨((C7_access_validity_amended initMemory (some 3) 0o777 1 "io").2.2.2.2.1
      (by decide) (by decide)).1,
   ((C7_access_validity_amended initMemory (some 3) 0o777 1 "io").2.2.2.2.2
      3 (by decide) (by decide)).1,
   ((C7_access_validity_amended initMemory (some 3) 0o777 1 "io").2.2.2.2.2
      3 (by decide) (by decide)).2⟩

/-- C8 (spec-modelled): writing a 15-bit word `v` to `CYR` stores its
right rotation; copying that stored value into the `CYL` cell (a plain
write) and reading `CYL` returns the left rotation of the stored
value while the cell itself stays unrotated, so the round trip
reproduces `v`. -/
theorem C8_cyr_cyl_roundtrip (st : Nat → Nat) (v : Nat) (hv : v < 32768) :
    (regSet st regCYR v) regCYR = cycleRight15 v ∧
    regGet (regSet (regSet st regCYR v) regCYL ((regSet st regCYR v) regCYR))
      regCYL = v ∧
    (regSet (regSet st regCYR v) regCYL ((regSet st regCYR v) regCYR))
      regCYL = cycleRight15 v := by
  have hrot : cycleLeft15 (cycleRight15 v) = v := by
    unfold cycleLeft15 cycleRight15
    omega
  refine ⟨rfl, ?_, rfl⟩
  show cycleLeft15 (cycleRight15 v) = v
  exact hrot

/-- C8 witness at the all-ones 15-bit pattern `0o77777` (which also
has the low bit set, exercising the carry across the word
boundary). -/
theorem C8_cyr_cyl_roundtrip_witness :
    (regSet (fun _ => 0) regCYR 0o77777) regCYR = cycleRight15 0o77777 ∧
    regGet (regSet (regSet (fun _ => 0) regCYR 0o77777) regCYL
      ((regSet (fun _ => 0) regCYR 0o77777) regCYR)) regCYL = 0o77777 ∧
    (regSet (regSet (fun _ => 0) regCYR 0o77777) regCYL
      ((regSet (fun _ => 0) regCYR 0o77777) regCYR)) regCYL =
      cycleRight15 0o77777 :=
  C8_cyr_cyl_roundtrip (fun _ => 0) 0o77777 (by decide)

/-- C9 counterexample: a `do_cycle` call that returns `false` still
overwrites the stored elapsed-time field, so the scheduler state does
not stay unchanged on the `false` branch. -/
theorem C9_due_state_change_counterexample :
    (doCycle { MCT_ns := 11720, elapsed_time_ns := 999,
               cycle_start_time_ns := 0, added_cycle := 0,
               elapsed_wait := 0, total_cycle_time := 0 } 5 5).2 = false ∧
    (doCycle { MCT_ns := 11720, elapsed_time_ns := 999,
               cycle_start_time_ns := 0, added_cycle := 0,
               elapsed_wait := 0, total_cycle_time := 0 } 5 5).1 ≠
      { MCT_ns := 11720, elapsed_time_ns := 999, cycle_start_time_ns := 0,
        added_cycle := 0, elapsed_wait := 0, total_cycle_time := 0 } := by
  decide

/-- C9 amended: the base period is fixed at 11,720 ns at construction,
and `do_cycle` — writing the computed elapsed value
`t1 - elapsed_wait - cycle_start` into the elapsed-time field on every
call — returns `true`, resets `cycle_start` to the current time,
zeroes the extra-cycle count and the pending wait, and records the
total cycle time, exactly when that computed value is at least
`base_period * (1 + extra_cycles)`; otherwise it returns `false` and
changes nothing but the stored elapsed-time field. -/
theorem C9_due_amended :
    (∀ t0 : Int, (initTimer t0).MCT_ns = 11720) ∧
    ∀ (t : Timer) (t1 t2 : Int), 0 ≤ t.added_cycle → 0 ≤ t.elapsed_wait →
      (t.MCT_ns * (1 + t.added_cycle) ≤
          (t1 - t.elapsed_wait) - t.cycle_start_time_ns →
        doCycle t t1 t2 =
          ({ t with
              elapsed_time_ns := (t1 - t.elapsed_wait) - t.cycle_start_time_ns
              cycle_start_time_ns := t2
              added_cycle := 0
              elapsed_wait := 0
              total_cycle_time := t1 - t.cycle_start_time_ns }, true)) ∧
      ((t1 - t.elapsed_wait) - t.cycle_start_time_ns <
          t.MCT_ns * (1 + t.added_cycle) →
        doCycle t t1 t2 =
          ({ t with
              elapsed_time_ns := (t1 - t.elapsed_wait) - t.cycle_start_time_ns },
            false)) := by
  refine ⟨fun _ => rfl, ?_⟩
  intro t t1 t2 hac hew
  have hmul : t.MCT_ns + t.MCT_ns * t.added_cycle =
      t.MCT_ns * (1 + t.added_cycle) := by ring
  constructor
  · intro hdue
    unfold doCycle
    rw [if_pos (by omega)]
    have e1 : (if 0 < t.added_cycle then 0 else t.added_cycle) = 0 := by
      split <;> omega
    have e2 : (if 0 < t.elapsed_wait then 0 else t.elapsed_wait) = 0 := by
      split <;> omega
    rw [e1, e2]
    have e3 : t1 - t.elapsed_wait - t.cycle_start_time_ns + t.elapsed_wait =
        t1 - t.cycle_start_time_ns := by ring
    rw [e3]
  · intro hlt
    unfold doCycle
    rw [if_neg (by omega)]

/-- C9 amended witness: a fresh timer polled 20,000 ns after its cycle
start fires, resets its cycle start to the second clock reading, and
records the elapsed and total times. -/
theorem C9_due_amended_witness :
    doCycle (initTimer 0) 20000 20001 =
      ({ initTimer 0 with
          elapsed_time_ns := 20000
          cycle_start_time_ns := 20001
          added_cycle := 0
          elapsed_wait := 0
          total_cycle_time := 20000 }, true) :=
  (C9_due_amended.2 (initTimer 0) 20000 20001 (by decide) (by decide)).1
    (by decide)

/-- C10: in both the read and the write path, bank `0` is
indistinguishable from an omitted bank whenever the address passes the
direct-range test: such an access is routed to the unswitched or
fixed-fixed view, and in particular an erasable access with bank `0`
and address in `[0, 0o1400)` succeeds and targets the switched cell at
bank `address / 0o400`, offset `address % 0o400`. -/
theorem C10_bank_zero_direct (m : Memory) (a v : Int) :
    (0 ≤ a → a < 0o1400 →
      memGetE m (some 0) a "erasable" = memGetE m none a "erasable" ∧
      memSetE m (some 0) a "erasable" v = memSetE m none a "erasable" v ∧
      memSetE m (some 0) a "erasable" v =
        .ok (updSwitched m (a / 0o400) (a % 0o400) (wrap16 v))) ∧
    (0o2000 ≤ a → a < 0o4000 →
      memGetE m (some 0) a "fixed" = memGetE m none a "fixed" ∧
      memSetE m (some 0) a "fixed" v = memSetE m none a "fixed" v ∧
      memGetE m (some 0) a "fixed" = .ok (m.fixed_fixed (a - 0o2000))) := by
  constructor
  · intro h0 h1
    refine ⟨?_, ?_, ?_⟩
    · rw [memGetE_era, memGetE_era, if_pos ⟨⟨h0, h1⟩, Or.inr rfl⟩,
        if_pos ⟨⟨h0, h1⟩, Or.inl rfl⟩]
    · rw [memSetE_era, memSetE_era, if_pos ⟨⟨h0, h1⟩, Or.inr rfl⟩,
        if_pos ⟨⟨h0, h1⟩, Or.inl rfl⟩]
    · rw [memSetE_era, if_pos ⟨⟨h0, h1⟩, Or.inr rfl⟩]
  · intro h0 h1
    refine ⟨?_, ?_, ?_⟩
    · rw [memGetE_fix, memGetE_fix, if_pos ⟨⟨h0, h1⟩, Or.inr rfl⟩,
        if_pos ⟨⟨h0, h1⟩, Or.inl rfl⟩]
    · rw [memSetE_fix, memSetE_fix, if_pos ⟨⟨h0, h1⟩, Or.inr rfl⟩,
        if_pos ⟨⟨h0, h1⟩, Or.inl rfl⟩]
    · rw [memGetE_fix, if_pos ⟨⟨h0, h1⟩, Or.inr rfl⟩]

/-- C10 witness at erasable address `0o1000` (switched bank 2) and
fixed address `0o2500`. -/
theorem C10_bank_zero_direct_witness :
    (memGetE initMemory (some 0) 0o1000 "erasable" =
       memGetE initMemory none 0o1000 "erasable" ∧
     memSetE initMemory (some 0) 0o1000 "erasable" 7 =
       memSetE initMemory none 0o1000 "erasable" 7 ∧
     memSetE initMemory (some 0) 0o1000 "erasable" 7 =
       .ok (updSwitched initMemory (0o1000 / 0o400) (0o1000 % 0o400)
             (wrap16 7))) ∧
    (memGetE initMemory (some 0) 0o2500 "fixed" =
       memGetE initMemory none 0o2500 "fixed" ∧
     memSetE initMemory (some 0) 0o2500 "fixed" 7 =
       memSetE initMemory none 0o2500 "fixed" 7 ∧
     memGetE initMemory (some 0) 0o2500 "fixed" =
       .ok (initMemory.fixed_fixed (0o2500 - 0o2000))) :=
  ⟨(C10_bank_zero_direct initMemory 0o1000 7).1 (by decide) (by decide),
   (C10_bank_zero_direct initMemory 0o2500 7).2 (by decide) (by decide)⟩
